import Mathlib

/-!
Verification development for the PiKVM session-management core
(`plugins/module_utils/pikvm_connection.py` and
`plugins/module_utils/pikvm_api.py`): the connection registry
(`PiKVMConnectionManager`), the TOTP code cache (`PiKVMTOTPManager`) and
the authentication-retry decorator (`retry_with_new_totp`), together with
the pieces of the API client (`PiKVMAPI`) they interact with.

Python dictionaries are modelled as association lists over `String` keys
(first-occurrence lookup, in-place replacement on assignment, deletion of
the first occurrence), timestamps as integers, and the network as explicit
outcome oracles (`Probe`, `LoginOutcome`, HTTP status values) supplied to
each call.  The external TOTP engine (`pyotp.TOTP(secret).now()`) is an
uninterpreted function `String → Int → String` of the secret and the
current time, passed as a parameter `tn` to every definition that uses it;
`pyotp`'s availability flag `HAS_PYOTP` is a boolean parameter `hp`.
-/

set_option autoImplicit false

namespace PiKVM

/-! ## Association lists modelling Python dicts -/

/-- `d[k]` / `d.get(k)`: first entry with the given key. -/
def alookup {α : Type} (k : String) : List (String × α) → Option α
  | [] => none
  | (k', v) :: t => if k' = k then some v else alookup k t

/-- `d[k] = v`: replace the value at the first occurrence of `k`,
else append the binding. -/
def aset {α : Type} (k : String) (v : α) : List (String × α) → List (String × α)
  | [] => [(k, v)]
  | (k', v') :: t => if k' = k then (k, v) :: t else (k', v') :: aset k v t

/-- `del d[k]` / `d.pop(k, None)`: drop the first occurrence of `k`. -/
def aerase {α : Type} (k : String) : List (String × α) → List (String × α)
  | [] => []
  | (k', v') :: t => if k' = k then t else (k', v') :: aerase k t

/-- The keys of an association list, in order. -/
def akeys {α : Type} (l : List (String × α)) : List String := l.map Prod.fst

/-- The dict invariant: no key occurs twice. -/
def wfMap {α : Type} (l : List (String × α)) : Prop := (akeys l).Nodup

instance {α : Type} (l : List (String × α)) : Decidable (wfMap l) := by
  unfold wfMap
  infer_instance

@[simp] theorem alookup_nil {α : Type} (k : String) : alookup k ([] : List (String × α)) = none :=
  rfl

@[simp] theorem alookup_cons {α : Type} (k k' : String) (v : α) (t : List (String × α)) :
    alookup k ((k', v) :: t) = if k' = k then some v else alookup k t := rfl

theorem alookup_aset_self {α : Type} (k : String) (v : α) (l : List (String × α)) :
    alookup k (aset k v l) = some v := by
  induction l with
  | nil => simp [aset]
  | cons h t ih =>
    obtain ⟨k', v'⟩ := h
    by_cases hk : k' = k <;> simp [aset, hk, ih]

theorem alookup_aset_ne {α : Type} {k k' : String} (v : α) (l : List (String × α))
    (h : k' ≠ k) : alookup k' (aset k v l) = alookup k' l := by
  induction l with
  | nil => simp [aset, Ne.symm h]
  | cons p t ih =>
    obtain ⟨k'', v''⟩ := p
    by_cases hk : k'' = k
    · subst hk
      simp [aset, Ne.symm h]
    · simp only [aset, if_neg hk, alookup_cons]
      by_cases hk2 : k'' = k' <;> simp [hk2, ih]

theorem aset_of_alookup_eq {α : Type} {k : String} {v : α} {l : List (String × α)}
    (h : alookup k l = some v) : aset k v l = l := by
  induction l with
  | nil => simp [alookup] at h
  | cons p t ih =>
    obtain ⟨k', v'⟩ := p
    by_cases hk : k' = k
    · subst hk
      simp at h
      simp [aset, h]
    · simp only [alookup_cons, if_neg hk] at h
      simp [aset, hk, ih h]

theorem aset_aset {α : Type} (k : String) (v v' : α) (l : List (String × α)) :
    aset k v' (aset k v l) = aset k v' l := by
  induction l with
  | nil => simp [aset]
  | cons p t ih =>
    obtain ⟨k', v''⟩ := p
    by_cases hk : k' = k <;> simp [aset, hk, ih]

theorem alookup_aerase_ne {α : Type} {k k' : String} (l : List (String × α))
    (h : k' ≠ k) : alookup k' (aerase k l) = alookup k' l := by
  induction l with
  | nil => simp [aerase]
  | cons p t ih =>
    obtain ⟨k'', v''⟩ := p
    by_cases hk : k'' = k
    · subst hk
      simp [aerase, Ne.symm h]
    · simp only [aerase, if_neg hk, alookup_cons]
      by_cases hk2 : k'' = k' <;> simp [hk2, ih]

theorem mem_akeys_aset {α : Type} (x k : String) (v : α) (l : List (String × α)) :
    x ∈ akeys (aset k v l) ↔ x = k ∨ x ∈ akeys l := by
  induction l with
  | nil => simp [aset, akeys]
  | cons p t ih =>
    obtain ⟨k', v'⟩ := p
    by_cases hk : k' = k
    · subst hk
      simp [aset, akeys]
    · simp only [aset, if_neg hk, akeys, List.map_cons, List.mem_cons] at *
      tauto

theorem wfMap_aset {α : Type} (k : String) (v : α) {l : List (String × α)}
    (h : wfMap l) : wfMap (aset k v l) := by
  induction l with
  | nil => simp [wfMap, aset, akeys]
  | cons p t ih =>
    obtain ⟨k', v'⟩ := p
    simp only [wfMap, akeys, List.map_cons, List.nodup_cons] at h
    by_cases hk : k' = k
    · subst hk
      simpa [wfMap, aset, akeys] using h
    · have ht := ih h.2
      simp only [wfMap, aset, if_neg hk, akeys, List.map_cons, List.nodup_cons]
      refine ⟨?_, ht⟩
      intro hmem
      rcases (mem_akeys_aset k' k v t).1 hmem with h1 | h1
      · exact hk h1
      · exact h.1 h1

/-- Looking a key up through a key-based filter. -/
theorem alookup_filter {α : Type} (k : String) (f : String → Bool) (l : List (String × α)) :
    alookup k (l.filter (fun p => f p.1)) =
      if f k then alookup k l else none := by
  induction l with
  | nil => simp
  | cons p t ih =>
    obtain ⟨k', v'⟩ := p
    by_cases hk : k' = k
    · subst hk
      by_cases hf : f k' <;> simp [List.filter_cons, hf, ih]
    · by_cases hf : f k' <;> simp [List.filter_cons, hf, hk, ih]

theorem aerase_sublist {α : Type} (k : String) (l : List (String × α)) :
    List.Sublist (aerase k l) l := by
  induction l with
  | nil => simp [aerase]
  | cons p t ih =>
    obtain ⟨k', v'⟩ := p
    by_cases hk : k' = k
    · simp only [aerase, if_pos hk]
      exact List.Sublist.cons _ (List.Sublist.refl t)
    · simp only [aerase, if_neg hk]
      exact List.Sublist.cons₂ _ ih

theorem mem_akeys_aerase {α : Type} {x k : String} {l : List (String × α)}
    (h : x ∈ akeys (aerase k l)) : x ∈ akeys l :=
  ((aerase_sublist k l).map Prod.fst).subset h

theorem wfMap_aerase {α : Type} (k : String) {l : List (String × α)}
    (h : wfMap l) : wfMap (aerase k l) :=
  List.Nodup.sublist ((aerase_sublist k l).map Prod.fst) h

theorem aerase_of_not_mem {α : Type} {k : String} {l : List (String × α)}
    (h : k ∉ akeys l) : aerase k l = l := by
  induction l with
  | nil => simp [aerase]
  | cons p t ih =>
    obtain ⟨k', v'⟩ := p
    simp only [akeys, List.map_cons, List.mem_cons] at h
    push_neg at h
    simp [aerase, Ne.symm h.1, ih h.2]

theorem aerase_eq_filter {α : Type} (k : String) {l : List (String × α)}
    (h : wfMap l) : aerase k l = l.filter (fun p => decide (p.1 ≠ k)) := by
  induction l with
  | nil => simp [aerase]
  | cons p t ih =>
    obtain ⟨k', v'⟩ := p
    simp only [wfMap, akeys, List.map_cons, List.nodup_cons] at h
    by_cases hk : k' = k
    · subst hk
      have hfilter : t.filter (fun p => !decide (p.1 = k')) = t := by
        apply List.filter_eq_self.2
        intro p hp
        simp only [Bool.not_eq_true', decide_eq_false_iff_not]
        intro hpk
        exact h.1 (hpk ▸ List.mem_map_of_mem Prod.fst hp)
      simp [aerase, hfilter]
    · simp only [aerase, if_neg hk, List.filter_cons]
      simp [hk, ih h.2]

theorem alookup_aerase_self {α : Type} {k : String} {l : List (String × α)}
    (h : wfMap l) : alookup k (aerase k l) = none := by
  rw [aerase_eq_filter k h]
  have hfl := alookup_filter k (fun s => decide (s ≠ k)) l
  simpa using hfl

/-! ## The API client (`PiKVMAPI`, pikvm_api.py) -/

/-- The two credential headers built by `PiKVMAPI._get_auth_headers`
(`X-KVMD-User` / `X-KVMD-Passwd`). -/
structure Headers where
  user : String
  passwd : String
deriving DecidableEq, Repr

/-- The mutable state of a `PiKVMAPI` instance. -/
structure ApiConn where
  hostname : String
  username : String
  password : String
  secret : Option String
  useHttps : Bool
  validateCerts : Bool
  baseUrl : String
  authToken : Option String
  headers : Headers
deriving DecidableEq, Repr

/-- Python truthiness of `self.secret and HAS_PYOTP` (an absent secret is
`None`; an empty string is also falsy). -/
def secretConfigured (hp : Bool) (secret : Option String) : Bool :=
  (match secret with
   | some s => !s.isEmpty
   | none => false) && hp

/-- `PiKVMAPI._get_auth_headers`: the password header is the password,
with `pyotp.TOTP(self.secret).now()` appended when a secret is configured
and the engine is available. `tn` is the TOTP engine, `now` the current time. -/
def get_auth_headers (tn : String → Int → String) (hp : Bool)
    (username password : String) (secret : Option String) (now : Int) : Headers :=
  let passwd :=
    match secret with
    | some s => if (!s.isEmpty) && hp then password ++ tn s now else password
    | none => password
  { user := username, passwd := passwd }

/-- `PiKVMAPI.__init__`: stores the parameters, starts with no session
token, and computes the initial credential headers via
`_get_auth_headers`. It performs no validation of the secret/engine
combination and cannot fail. -/
def initConn (tn : String → Int → String) (hp : Bool)
    (hostname username password : String) (secret : Option String)
    (useHttps validateCerts : Bool) (now : Int) : ApiConn :=
  { hostname := hostname
    username := username
    password := password
    secret := secret
    useHttps := useHttps
    validateCerts := validateCerts
    baseUrl := (if useHttps then "https" else "http") ++ "://" ++ hostname
    authToken := none
    headers := get_auth_headers tn hp username password secret now }

instance {ε α : Type} [DecidableEq ε] [DecidableEq α] : DecidableEq (Except ε α)
  | .error a, .error b =>
    if h : a = b then isTrue (by rw [h]) else isFalse (by intro hh; cases hh; exact h rfl)
  | .error _, .ok _ => isFalse (by intro hh; cases hh)
  | .ok _, .error _ => isFalse (by intro hh; cases hh)
  | .ok a, .ok b =>
    if h : a = b then isTrue (by rw [h]) else isFalse (by intro hh; cases hh; exact h rfl)

/-- Outcomes of the (at most two) HTTP probes one `check_auth` call makes:
the GET with the cached session token (used only when a token is held) and
the GET with credential headers. `Except.error` models the request raising. -/
structure Probe where
  tokenStatus : Except String Nat
  headerStatus : Except String Nat
deriving DecidableEq, Repr

/-- `PiKVMAPI.check_auth`: when a session token is held, probe with it;
on a non-200 answer drop the token and fall back to the header probe.
Returns the probe verdict together with the (possibly mutated) client. -/
def check_auth (p : Probe) (c : ApiConn) : Except String Bool × ApiConn :=
  match c.authToken with
  | some _ =>
    match p.tokenStatus with
    | .error e => (.error e, c)
    | .ok s =>
      if s = 200 then (.ok true, c)
      else
        let c1 : ApiConn := { c with authToken := none }
        match p.headerStatus with
        | .error e => (.error e, c1)
        | .ok s2 => (.ok (decide (s2 = 200)), c1)
  | none =>
    match p.headerStatus with
    | .error e => (.error e, c)
    | .ok s2 => (.ok (decide (s2 = 200)), c)

/-- Outcome of the login POST: HTTP status and the `auth_token` cookie of
the response. -/
structure LoginOutcome where
  status : Except String Nat
  cookieToken : Option String
deriving DecidableEq, Repr

/-- The `passwd` form field sent by `PiKVMAPI.login`: the password with a
freshly computed `pyotp.TOTP(self.secret).now()` appended when a secret is
configured and the engine is available. -/
def login_passwd (tn : String → Int → String) (hp : Bool)
    (password : String) (secret : Option String) (now : Int) : String :=
  match secret with
  | some s => if (!s.isEmpty) && hp then password ++ tn s now else password
  | none => password

/-- `PiKVMAPI.login`: POST the credentials; on HTTP 200 store the
`auth_token` cookie and report success, otherwise report failure without
mutating the client. -/
def loginCall (lo : LoginOutcome) (c : ApiConn) : Except String Bool × ApiConn :=
  match lo.status with
  | .error e => (.error e, c)
  | .ok s =>
    if s = 200 then (.ok true, { c with authToken := lo.cookieToken })
    else (.ok false, c)

/-- `PiKVMAPI.logout`: a no-op success when no token is held; otherwise
POST, and on HTTP 200 drop the token. -/
def logoutCall (post : Except String Nat) (c : ApiConn) : Except String Bool × ApiConn :=
  match c.authToken with
  | none => (.ok true, c)
  | some _ =>
    match post with
    | .error e => (.error e, c)
    | .ok s =>
      if s = 200 then (.ok true, { c with authToken := none })
      else (.ok false, c)

/-- A JSON object body, as far as `_handle_response` inspects it: the
`ok` field (`data.get('ok') is False`) and the `error` field. -/
structure JsonDict where
  okField : Option Bool
  errorField : Option String
deriving DecidableEq, Repr

/-- An HTTP response as consumed by `_handle_response`. `jsonData = none`
models a body on which `.json()` raises `ValueError`. (The device API only
returns JSON objects, so non-object JSON bodies are not modelled.) -/
structure HttpResponse where
  statusCode : Nat
  jsonData : Option JsonDict
  text : String
  hasContent : Bool
deriving DecidableEq, Repr

/-- Successful `_handle_response` results: parsed JSON, raw content bytes,
or `None`. -/
inductive ApiResult where
  | json (d : JsonDict)
  | raw
  | empty
deriving DecidableEq, Repr

/-- `PiKVMAPI._handle_response`: classify a response, raising
`PiKVMAPIError` (modelled as the error message string) for failures.
HTTP 403 with a configured secret and available engine additionally
refreshes `self.headers` with a fresh TOTP code before raising. -/
def handle_response (tn : String → Int → String) (hp : Bool) (now : Int)
    (c : ApiConn) (resp : HttpResponse) (expectedStatus : Nat) :
    Except String ApiResult × ApiConn :=
  if resp.statusCode = 401 then
    (.error "Authentication required", c)
  else if resp.statusCode = 403 then
    if secretConfigured hp c.secret then
      (.error "Authentication failed - TOTP might have expired",
       { c with headers := get_auth_headers tn hp c.username c.password c.secret now })
    else
      (.error "Authentication failed - incorrect credentials", c)
  else if resp.statusCode ≠ expectedStatus then
    let errorMsg :=
      match resp.jsonData with
      | some d => d.errorField.getD "Unknown error"
      | none => if resp.text.isEmpty then "HTTP " ++ toString resp.statusCode else resp.text
    (.error ("API request failed: " ++ errorMsg), c)
  else
    match resp.jsonData with
    | some d =>
      if d.okField = some false then
        (.error ("API returned error: " ++ d.errorField.getD "Unknown API error"), c)
      else (.ok (.json d), c)
    | none =>
      if resp.hasContent then (.ok .raw, c) else (.ok .empty, c)

/-! ## The TOTP code cache (`PiKVMTOTPManager`) -/

/-- The three dicts of `PiKVMTOTPManager`: created engine objects (only
their presence matters), cached codes and their absolute expiry instants. -/
structure TotpState where
  totpObjects : List String
  totpCodes : List (String × String)
  codeExpiry : List (String × Int)
deriving DecidableEq, Repr

/-- `PiKVMTOTPManager._is_code_valid`: a cached code is valid iff the
current time is strictly below its expiry minus a 5-second buffer. -/
def is_code_valid (st : TotpState) (secret : String) (now : Int) : Bool :=
  match alookup secret st.codeExpiry with
  | none => false
  | some expiry => decide (now < expiry - 5)

/-- `PiKVMTOTPManager.get_totp_code`: raise when no engine is available;
otherwise return the cached code when present, valid and no refresh is
forced; else generate a fresh code via the engine and cache it with the
step-aligned expiry `now + interval - (now % interval)`. -/
def get_totp_code (tn : String → Int → String) (interval : Int) (hp : Bool)
    (st : TotpState) (secret : String) (refresh : Bool) (now : Int) :
    Except String (String × TotpState) :=
  if hp = false then .error "pyotp is required for 2FA authentication"
  else
    let cached : Option String :=
      if refresh = false then
        match alookup secret st.totpCodes with
        | some code => if is_code_valid st secret now then some code else none
        | none => none
      else none
    match cached with
    | some code => .ok (code, st)
    | none =>
      let objects := if secret ∈ st.totpObjects then st.totpObjects else st.totpObjects ++ [secret]
      let code := tn secret now
      let expiry := now + interval - now % interval
      .ok (code,
        { totpObjects := objects
          totpCodes := aset secret code st.totpCodes
          codeExpiry := aset secret expiry st.codeExpiry })

/-- `PiKVMTOTPManager.time_remaining`: non-negative time until the cached
code expires; zero when nothing is cached. -/
def time_remaining (st : TotpState) (secret : String) (now : Int) : Int :=
  match alookup secret st.codeExpiry with
  | none => 0
  | some expiry => max 0 (expiry - now)

/-! ## The retry decorator (`retry_with_new_totp`) -/

/-- The substring test the decorator applies to a raised `PiKVMAPIError`:
`"TOTP might have expired" in str(e)`. -/
def startsWithL : List Char → List Char → Bool
  | [], _ => true
  | _ :: _, [] => false
  | a :: as, b :: bs => a == b && startsWithL as bs

def hasSubstringL (needle : List Char) : List Char → Bool
  | [] => needle.isEmpty
  | b :: bs => startsWithL needle (b :: bs) || hasSubstringL needle bs

def totpRetrySignature (msg : String) : Bool :=
  hasSubstringL "TOTP might have expired".toList msg.toList

/-- The decorator's on-retry side effect:
`args[0].headers = args[0]._get_auth_headers()`. -/
def retryRefresh (tn : String → Int → String) (hp : Bool) (t : Int) (c : ApiConn) : ApiConn :=
  { c with headers := get_auth_headers tn hp c.username c.password c.secret t }

/-- The loop of `retry_with_new_totp`'s wrapper. The wrapped operation is
an oracle `op` giving, per attempt index, the outcome and the mutated
client; `b` is the remaining retry budget (`max_retries - retries`) and
`t` gives the time at which attempt `i`'s header refresh would occur.
On a failure whose message carries the TOTP signature and with budget
left, refresh the headers and try again; otherwise re-raise. -/
def retryGo {α : Type} (tn : String → Int → String) (hp : Bool) (t : Nat → Int)
    (op : Nat → ApiConn → Except String α × ApiConn) :
    Nat → Nat → ApiConn → Except String α × ApiConn
  | 0, i, c => op i c
  | b + 1, i, c =>
    match op i c with
    | (.ok a, c') => (.ok a, c')
    | (.error e, c') =>
      if totpRetrySignature e then retryGo tn hp t op b (i + 1) (retryRefresh tn hp (t i) c')
      else (.error e, c')

/-- `retry_with_new_totp(max_retries)` applied to an operation. -/
def retry_with_new_totp {α : Type} (tn : String → Int → String) (hp : Bool) (t : Nat → Int)
    (maxRetries : Nat) (op : Nat → ApiConn → Except String α × ApiConn) (c : ApiConn) :
    Except String α × ApiConn :=
  retryGo tn hp t op maxRetries 0 c

/-- The client state at the start of attempt `j`: the initial client with
`j` header refreshes interleaved with the failed attempts before it. -/
def chainConn {α : Type} (tn : String → Int → String) (hp : Bool) (t : Nat → Int)
    (op : Nat → ApiConn → Except String α × ApiConn) (c : ApiConn) (i : Nat) :
    Nat → ApiConn
  | 0 => c
  | j + 1 => retryRefresh tn hp (t (i + j)) (op (i + j) (chainConn tn hp t op c i j)).2

/-- Whether an attempt outcome is a failure carrying the TOTP-expiry
signature (the only condition under which the decorator retries). -/
def sigFailure {α : Type} (r : Except String α × ApiConn) : Bool :=
  match r.1 with
  | .error e => totpRetrySignature e
  | .ok _ => false

/-! ## The connection registry (`PiKVMConnectionManager`) -/

/-- The four dicts of a `PiKVMConnectionManager` instance. -/
structure RegState where
  connections : List (String × ApiConn)
  lastUsed : List (String × Int)
  tokens : List (String × String)
  tokenExpiry : List (String × Int)
deriving DecidableEq, Repr

/-- All four dicts honour the dict invariant. -/
def wfState (st : RegState) : Prop :=
  wfMap st.connections ∧ wfMap st.lastUsed ∧ wfMap st.tokens ∧ wfMap st.tokenExpiry

instance (st : RegState) : Decidable (wfState st) := by
  unfold wfState wfMap
  infer_instance

/-- `PiKVMConnectionManager._get_connection_key`:
`f"{username}@{hostname}:{use_https}"`. -/
def get_connection_key (hostname username : String) (useHttps : Bool) : String :=
  username ++ "@" ++ hostname ++ ":" ++ (if useHttps then "True" else "False")

/-- `PiKVMConnectionManager.get_total_connections`. -/
def get_total_connections (st : RegState) : Nat := st.connections.length

/-- Removal of one key from all four registry dicts (the shared teardown
tail of `close_connection` / `close_all_connections` /
`clean_unused_connections`). -/
def removeKey (k : String) (st : RegState) : RegState :=
  { connections := aerase k st.connections
    lastUsed := aerase k st.lastUsed
    tokens := aerase k st.tokens
    tokenExpiry := aerase k st.tokenExpiry }

/-- Registry-level events observable during one `get_connection` call. -/
inductive Event where
  | checkAuth
  | login
  | logout
  | create
deriving DecidableEq, Repr

/-- Result of one `get_connection` call: the returned client or the
propagated exception, the registry state afterwards, the transport calls
made, and — when the pool slot for the key was overwritten — the final
state of the displaced client object. -/
structure GetConnResult where
  result : Except String ApiConn
  state : RegState
  events : List Event
  displaced : Option ApiConn
deriving DecidableEq, Repr

/-- The creation tail of `get_connection`: construct a fresh `PiKVMAPI`,
probe it (`if not conn.check_auth(): conn.login()`, exceptions
propagating), then store it under the key with a fresh last-used stamp. -/
def createConnection (tn : String → Int → String) (hp : Bool) (now : Int)
    (newProbe : Probe) (newLogin : LoginOutcome)
    (hostname username password : String) (secret : Option String)
    (useHttps validateCerts : Bool)
    (key : String) (st : RegState) (ev : List Event) : GetConnResult :=
  let c0 := initConn tn hp hostname username password secret useHttps validateCerts now
  match check_auth newProbe c0 with
  | (.error e, _) =>
    { result := .error e, state := st, events := ev ++ [.create, .checkAuth], displaced := none }
  | (.ok b, c1) =>
    if b then
      { result := .ok c1
        state := { st with connections := aset key c1 st.connections
                           lastUsed := aset key now st.lastUsed }
        events := ev ++ [.create, .checkAuth]
        displaced := alookup key st.connections }
    else
      match loginCall newLogin c1 with
      | (.error e, _) =>
        { result := .error e, state := st, events := ev ++ [.create, .checkAuth, .login],
          displaced := none }
      | (.ok _, c2) =>
        { result := .ok c2
          state := { st with connections := aset key c2 st.connections
                             lastUsed := aset key now st.lastUsed }
          events := ev ++ [.create, .checkAuth, .login]
          displaced := alookup key st.connections }

/-- `PiKVMConnectionManager.get_connection`. With `force_new` false and a
pooled entry present: probe it (`check_auth`), on failure try one
re-login, and on success of either update the last-used stamp and return
the pooled object; any exception is swallowed and, like a double failure,
falls through to fresh creation which overwrites the pool slot. In-place
mutations of the pooled object (by `check_auth`/`login`) are visible
through the pool map. -/
def get_connection (tn : String → Int → String) (hp : Bool) (now : Int)
    (pooledProbe : Probe) (pooledLogin : LoginOutcome)
    (newProbe : Probe) (newLogin : LoginOutcome)
    (hostname username password : String) (secret : Option String)
    (useHttps validateCerts forceNew : Bool) (st : RegState) : GetConnResult :=
  let key := get_connection_key hostname username useHttps
  match (if forceNew then none else alookup key st.connections) with
  | some c =>
    match check_auth pooledProbe c with
    | (.error _, c1) =>
      createConnection tn hp now newProbe newLogin hostname username password secret
        useHttps validateCerts key
        { st with connections := aset key c1 st.connections } [.checkAuth]
    | (.ok b, c1) =>
      if b then
        { result := .ok c1
          state := { st with connections := aset key c1 st.connections
                             lastUsed := aset key now st.lastUsed }
          events := [.checkAuth]
          displaced := none }
      else
        match loginCall pooledLogin c1 with
        | (.error _, c2) =>
          createConnection tn hp now newProbe newLogin hostname username password secret
            useHttps validateCerts key
            { st with connections := aset key c2 st.connections } [.checkAuth, .login]
        | (.ok lb, c2) =>
          if lb then
            { result := .ok c2
              state := { st with connections := aset key c2 st.connections
                                 lastUsed := aset key now st.lastUsed }
              events := [.checkAuth, .login]
              displaced := none }
          else
            createConnection tn hp now newProbe newLogin hostname username password secret
              useHttps validateCerts key
              { st with connections := aset key c2 st.connections } [.checkAuth, .login]
  | none =>
    createConnection tn hp now newProbe newLogin hostname username password secret
      useHttps validateCerts key st []

/-- `PiKVMConnectionManager.close_connection`: look the key up; when
present, attempt a best-effort logout (its outcome — including a raise —
is swallowed) and remove the key from all four dicts; report whether an
entry existed. -/
def close_connection (logoutPost : Except String Nat)
    (hostname username : String) (useHttps : Bool) (st : RegState) :
    Bool × RegState × List Event :=
  let key := get_connection_key hostname username useHttps
  match alookup key st.connections with
  | some c =>
    let _discarded := logoutCall logoutPost c
    (true, removeKey key st, [.logout])
  | none => (false, st, [])

/-- The loop of `close_all_connections` over a snapshot of the pool's
keys: best-effort logout, removal from all four dicts, counting each
removal. The returned list records the keys whose entries had a logout
attempted. -/
def closeAllLoop (posts : String → Except String Nat) :
    List String → RegState → RegState × Nat × List String
  | [], st => (st, 0, [])
  | k :: ks, st =>
    let _discarded := (alookup k st.connections).map (logoutCall (posts k))
    let r := closeAllLoop posts ks (removeKey k st)
    (r.1, r.2.1 + 1, k :: r.2.2)

/-- `PiKVMConnectionManager.close_all_connections`. -/
def close_all_connections (posts : String → Except String Nat) (st : RegState) :
    RegState × Nat × List String :=
  closeAllLoop posts (akeys st.connections) st

/-- Staleness test of `clean_unused_connections` for one key:
`current_time - self._last_used.get(conn_key, 0) > max_idle_time`. -/
def connStale (current maxIdle : Int) (lastUsed : List (String × Int)) (k : String) : Bool :=
  decide (current - ((alookup k lastUsed).getD 0) > maxIdle)

/-- The loop of `clean_unused_connections` over a snapshot of the pool's
keys: remove (with best-effort logout) every key whose last-used stamp is
strictly older than `max_idle_time` seconds before the call. -/
def cleanLoop (posts : String → Except String Nat) (current maxIdle : Int) :
    List String → RegState → RegState × Nat × List String
  | [], st => (st, 0, [])
  | k :: ks, st =>
    if connStale current maxIdle st.lastUsed k then
      let _discarded := (alookup k st.connections).map (logoutCall (posts k))
      let r := cleanLoop posts current maxIdle ks (removeKey k st)
      (r.1, r.2.1 + 1, k :: r.2.2)
    else
      cleanLoop posts current maxIdle ks st

/-- `PiKVMConnectionManager.clean_unused_connections`. -/
def clean_unused_connections (posts : String → Except String Nat)
    (current maxIdle : Int) (st : RegState) : RegState × Nat × List String :=
  cleanLoop posts current maxIdle (akeys st.connections) st

/-! ## Spec-side comparators (refinement targets for the TOTP-cache claims)

The spec describes the login credential and the retry-time header
regeneration as obtaining their code from the TOTP Cache (`get_code`,
with `refresh=true` in the retry case). The following definitions follow
the spec's words, to be compared with the source-derived
`login_passwd` / `retryRefresh` above. -/

/-- The retry decorator's header regeneration viewed as acting on the
combined (client, TOTP cache) state. The source touches only
`self.headers` (via `_get_auth_headers`) and never reads or writes
the `PiKVMTOTPManager` state. -/
def retryRefreshCombined (tn : String → Int → String) (hp : Bool) (t : Int)
    (c : ApiConn) (cache : TotpState) : ApiConn × TotpState :=
  (retryRefresh tn hp t c, cache)

/-- Header regeneration as the spec words it: the code comes from the
TOTP Cache's `get_code` with `refresh=true`, updating the cache. -/
def retryRefreshSpec (tn : String → Int → String) (interval : Int) (hp : Bool) (t : Int)
    (c : ApiConn) (cache : TotpState) : Except String (ApiConn × TotpState) :=
  match c.secret with
  | some s =>
    match get_totp_code tn interval hp cache s true t with
    | .error e => .error e
    | .ok (code, cache') =>
      .ok ({ c with headers := { user := c.username, passwd := c.password ++ code } }, cache')
  | none => .ok ({ c with headers := { user := c.username, passwd := c.password } }, cache)

/-- The login credential as the spec words it: password concatenated with
a code obtained from the TOTP Cache's `get_code` (cache reuse allowed). -/
def login_passwd_spec (tn : String → Int → String) (interval : Int) (hp : Bool)
    (cache : TotpState) (password : String) (secret : Option String) (now : Int) :
    Except String (String × TotpState) :=
  match secret with
  | some s =>
    match get_totp_code tn interval hp cache s false now with
    | .error e => .error e
    | .ok (code, cache') => .ok (password ++ code, cache')
  | none => .ok (password, cache)

/-! ## Theorems -/

/-- A concrete TOTP engine used in witnesses and counterexamples:
the code for secret `s` at time `t` is `s` followed by the decimal of `t`. -/
def tnW : String → Int → String := fun s t => s ++ toString t

/-- A concrete client fixture (no second factor, session token held). -/
def connA : ApiConn :=
  { hostname := "h"
    username := "u"
    password := "pw"
    secret := none
    useHttps := true
    validateCerts := false
    baseUrl := "https://h"
    authToken := some "tok"
    headers := { user := "u", passwd := "pw" } }

/-- A second concrete client fixture (different device). -/
def connB : ApiConn :=
  { hostname := "h2"
    username := "u"
    password := "pw"
    secret := none
    useHttps := true
    validateCerts := false
    baseUrl := "https://h2"
    authToken := none
    headers := { user := "u", passwd := "pw" } }

/-- A concrete client fixture with a second factor configured and a
session token held. -/
def connS : ApiConn :=
  { hostname := "h"
    username := "u"
    password := "pw"
    secret := some "S"
    useHttps := true
    validateCerts := false
    baseUrl := "https://h"
    authToken := some "tok"
    headers := { user := "u", passwd := "pwX" } }

/-- The state `get_totp_code` caches when it generates a fresh code:
the engine's code for the current time and the step-aligned expiry. -/
def totpFreshState (tn : String → Int → String) (interval : Int)
    (st : TotpState) (secret : String) (now : Int) : TotpState :=
  { totpObjects := if secret ∈ st.totpObjects then st.totpObjects else st.totpObjects ++ [secret]
    totpCodes := aset secret (tn secret now) st.totpCodes
    codeExpiry := aset secret (now + interval - now % interval) st.codeExpiry }

/-- Claim C5: for a secret with a cached entry, `get_code(secret,
refresh=false)` returns the cached code exactly when the current time is
strictly below the entry's expiry minus 5 seconds; otherwise — and always
when `refresh=true` — it computes a fresh code for the current time,
stores it with the window's step-aligned expiry, and returns it. -/
theorem totp_cache_validity (tn : String → Int → String) (interval : Int)
    (st : TotpState) (secret code : String) (expiry now : Int)
    (hcode : alookup secret st.totpCodes = some code)
    (hexp : alookup secret st.codeExpiry = some expiry)
    (hI : 0 < interval) :
    (now < expiry - 5 →
      get_totp_code tn interval true st secret false now = .ok (code, st)) ∧
    (¬(now < expiry - 5) →
      get_totp_code tn interval true st secret false now =
        .ok (tn secret now, totpFreshState tn interval st secret now)) ∧
    get_totp_code tn interval true st secret true now =
      .ok (tn secret now, totpFreshState tn interval st secret now) ∧
    alookup secret (totpFreshState tn interval st secret now).codeExpiry =
      some (now + interval - now % interval) ∧
    (now + interval - now % interval) % interval = 0 ∧
    now < now + interval - now % interval ∧
    now + interval - now % interval ≤ now + interval := by
  have h2 : 0 ≤ now % interval := Int.emod_nonneg now (by omega)
  have h3 : now % interval < interval := Int.emod_lt_of_pos now hI
  have key : now + interval - now % interval = interval * (now / interval + 1) := by
    rw [Int.emod_def]
    ring
  refine ⟨?_, ?_, ?_, ?_, ?_, by linarith, by linarith⟩
  · intro h
    simp [get_totp_code, hcode, is_code_valid, hexp, h]
  · intro h
    simp [get_totp_code, hcode, is_code_valid, hexp, h, totpFreshState]
  · simp [get_totp_code, totpFreshState]
  · simp [totpFreshState, alookup_aset_self]
  · rw [key]
    exact Int.mul_emod_right _ _

/-- Witness for C5: a concrete cache with a valid entry returns the
cached code, and with an expired entry regenerates. -/
theorem totp_cache_validity_witness :
    get_totp_code (fun s t => s ++ toString t) 30 true
        ⟨["S"], [("S", "CACHED")], [("S", 1000)]⟩ "S" false 10 =
      .ok ("CACHED", ⟨["S"], [("S", "CACHED")], [("S", 1000)]⟩) ∧
    get_totp_code (fun s t => s ++ toString t) 30 true
        ⟨["S"], [("S", "CACHED")], [("S", 14)]⟩ "S" false 10 =
      .ok ("S10", ⟨["S"], [("S", "S10")], [("S", 30)]⟩) := by
  constructor
  · exact (totp_cache_validity (fun s t => s ++ toString t) 30
      ⟨["S"], [("S", "CACHED")], [("S", 1000)]⟩ "S" "CACHED" 1000 10
      (by decide) (by decide) (by decide)).1 (by decide)
  · have h := (totp_cache_validity (fun s t => s ++ toString t) 30
      ⟨["S"], [("S", "CACHED")], [("S", 14)]⟩ "S" "CACHED" 14 10
      (by decide) (by decide) (by decide)).2.1 (by decide)
    rw [h]
    rfl

/-- Claim C8: `close_connection` removes the pooled entry for the
identity when one exists — independently of the best-effort logout's
outcome, including a raise — and returns whether an entry existed; with
no entry it returns false and leaves the registry unchanged. -/
theorem close_connection_spec (post post' : Except String Nat)
    (hostname username : String) (useHttps : Bool) (st : RegState)
    (hwf : wfMap st.connections) :
    close_connection post hostname username useHttps st =
      close_connection post' hostname username useHttps st ∧
    (close_connection post hostname username useHttps st).1 =
      (alookup (get_connection_key hostname username useHttps) st.connections).isSome ∧
    ((alookup (get_connection_key hostname username useHttps) st.connections).isSome = true →
      (close_connection post hostname username useHttps st).2.1 =
        removeKey (get_connection_key hostname username useHttps) st ∧
      alookup (get_connection_key hostname username useHttps)
        (close_connection post hostname username useHttps st).2.1.connections = none) ∧
    (∀ k, k ≠ get_connection_key hostname username useHttps →
      alookup k (close_connection post hostname username useHttps st).2.1.connections =
        alookup k st.connections) ∧
    ((alookup (get_connection_key hostname username useHttps) st.connections).isSome = false →
      (close_connection post hostname username useHttps st).2.1 = st) := by
  cases hl : alookup (get_connection_key hostname username useHttps) st.connections with
  | none =>
    refine ⟨?_, ?_, ?_, ?_, ?_⟩ <;>
      simp [close_connection, hl]
  | some c =>
    refine ⟨?_, ?_, ?_, ?_, ?_⟩
    · simp [close_connection, hl]
    · simp [close_connection, hl]
    · intro _
      refine ⟨by simp [close_connection, hl], ?_⟩
      simp only [close_connection, hl]
      exact alookup_aerase_self hwf
    · intro k hk
      simp only [close_connection, hl]
      exact alookup_aerase_ne st.connections hk
    · intro hcontra
      simp [hl] at hcontra

/-- Witness for C8: on a concrete one-entry registry, closing with a
raising logout still removes the entry and returns true. -/
theorem close_connection_spec_witness :
    wfMap [("u@h:True", connA)] ∧
    (close_connection (.error "network down") "h" "u" true
      ⟨[("u@h:True", connA)], [("u@h:True", 0)], [], []⟩).1 = true := by
  constructor
  · decide
  · have h := (close_connection_spec (.error "network down") (.ok 200) "h" "u" true
      ⟨[("u@h:True", connA)], [("u@h:True", 0)], [], []⟩ (by decide)).2.1
    rw [h]
    decide

/-- The loop of `close_all_connections` empties the pool and counts every
key of the snapshot. -/
theorem closeAllLoop_spec (posts : String → Except String Nat) :
    ∀ (ks : List String) (st : RegState),
    akeys st.connections = ks → (akeys st.connections).Nodup →
    (closeAllLoop posts ks st).1.connections = [] ∧
    (closeAllLoop posts ks st).2.1 = ks.length ∧
    (closeAllLoop posts ks st).2.2 = ks := by
  intro ks
  induction ks with
  | nil =>
    intro st h _
    have hc : st.connections = [] := List.map_eq_nil_iff.1 h
    simp [closeAllLoop, hc]
  | cons k ks ih =>
    intro st h hn
    cases hc : st.connections with
    | nil => rw [hc] at h; simp [akeys] at h
    | cons p rest =>
      rw [hc] at h
      simp only [akeys, List.map_cons, List.cons.injEq] at h
      have hrest : akeys rest = ks := h.2
      have herase : aerase k st.connections = rest := by
        rw [hc, aerase, if_pos h.1]
      have hkeys' : akeys (removeKey k st).connections = ks := by
        simp only [removeKey, herase, hrest]
      have hn' : (akeys (removeKey k st).connections).Nodup := by
        rw [hkeys']
        rw [hc] at hn
        simp only [akeys, List.map_cons, List.nodup_cons] at hn
        rw [← hrest]
        exact hn.2
      obtain ⟨h1, h2, h3⟩ := ih (removeKey k st) hkeys' hn'
      refine ⟨?_, ?_, ?_⟩ <;> simp [closeAllLoop, h1, h2, h3]

/-- Claim C9: `close_all_connections()` on a registry with N pooled
entries returns N, attempts a best-effort logout on each entry, and
leaves `get_total_connections()` at 0. -/
theorem close_all_connections_spec (posts : String → Except String Nat)
    (st : RegState) (hwf : wfMap st.connections) :
    (close_all_connections posts st).2.1 = get_total_connections st ∧
    get_total_connections (close_all_connections posts st).1 = 0 ∧
    (close_all_connections posts st).2.2 = akeys st.connections := by
  obtain ⟨h1, h2, h3⟩ := closeAllLoop_spec posts (akeys st.connections) st rfl hwf
  refine ⟨?_, ?_, h3⟩
  · rw [close_all_connections, h2]
    simp [akeys, get_total_connections]
  · rw [get_total_connections, close_all_connections, h1]
    rfl

/-- Witness for C9: a concrete two-entry registry closes both entries. -/
theorem close_all_connections_spec_witness :
    wfMap [("a", connA), ("b", connB)] ∧
    (close_all_connections (fun _ => .ok 200)
      ⟨[("a", connA), ("b", connB)], [("a", 0), ("b", 90)], [], []⟩).2.1 = 2 := by
  constructor
  · decide
  · have h := (close_all_connections_spec (fun _ => .ok 200)
      ⟨[("a", connA), ("b", connB)], [("a", 0), ("b", 90)], [], []⟩ (by decide)).1
    rw [h]
    rfl

/-- Counterexample to C3 as stated: with a secret supplied and no TOTP
engine in the runtime, connection creation does not fail at all — the
client is constructed and pooled, its credential silently falling back to
the bare password. -/
theorem secret_without_engine_creation_succeeds :
    (get_connection tnW false 5 ⟨.ok 200, .ok 200⟩ ⟨.ok 200, none⟩ ⟨.ok 200, .ok 200⟩
      ⟨.ok 200, none⟩ "h" "u" "pw" (some "S") true false false ⟨[], [], [], []⟩).result =
      .ok (initConn tnW false "h" "u" "pw" (some "S") true false 5) ∧
    (initConn tnW false "h" "u" "pw" (some "S") true false 5).headers =
      { user := "u", passwd := "pw" } := by
  constructor <;> rfl

/-- Claim C3 amended: when a second-factor secret is supplied but no TOTP
engine is available, connection creation succeeds and silently omits the
TOTP component — the credential headers and the login form carry the bare
password. No `SecondFactorUnavailable`-style failure is raised at
creation; the only engine-missing failure in this core lives in the TOTP
cache's `get_code`, which the creation path never calls. -/
theorem secret_without_engine_amended
    (tn : String → Int → String) (hostname username password s : String)
    (useHttps validateCerts : Bool) (now : Int)
    (interval : Int) (st : TotpState) (secret' : String) (refresh : Bool) (now' : Int) :
    (initConn tn false hostname username password (some s) useHttps validateCerts now).headers =
      { user := username, passwd := password } ∧
    login_passwd tn false password (some s) now = password ∧
    get_totp_code tn interval false st secret' refresh now' =
      .error "pyotp is required for 2FA authentication" := by
  refine ⟨?_, ?_, ?_⟩
  · simp [initConn, get_auth_headers]
  · simp [login_passwd]
  · simp [get_totp_code]

/-- Counterexample to C4 as stated: the identity-key computation is not
injective on (username, hostname, scheme) — a username containing `"@"`
collides with a different identity. -/
theorem connection_key_not_injective :
    get_connection_key "c" "a@b" true = get_connection_key "b@c" "a" true ∧
    (("a@b", "c", true) : String × String × Bool) ≠ ("a", "b@c", true) := by
  constructor
  · rfl
  · decide

/-- Splitting a list at a separator absent from both prefixes is
unambiguous. -/
theorem append_sep_inj {sep : Char} : ∀ (a₁ a₂ r₁ r₂ : List Char),
    sep ∉ a₁ → sep ∉ a₂ → a₁ ++ sep :: r₁ = a₂ ++ sep :: r₂ → a₁ = a₂ ∧ r₁ = r₂ := by
  intro a₁
  induction a₁ with
  | nil =>
    intro a₂ r₁ r₂ _ h2 heq
    cases a₂ with
    | nil => simpa using heq
    | cons b bs =>
      simp only [List.nil_append, List.cons_append, List.cons.injEq] at heq
      exact absurd (by rw [heq.1]; exact List.mem_cons_self b bs) h2
  | cons a as ih =>
    intro a₂ r₁ r₂ h1 h2 heq
    cases a₂ with
    | nil =>
      simp only [List.nil_append, List.cons_append, List.cons.injEq] at heq
      exact absurd (by rw [← heq.1]; exact List.mem_cons_self a as) h1
    | cons b bs =>
      simp only [List.cons_append, List.cons.injEq] at heq
      have h1' : sep ∉ as := fun hm => h1 (List.mem_cons_of_mem a hm)
      have h2' : sep ∉ bs := fun hm => h2 (List.mem_cons_of_mem b hm)
      obtain ⟨hh, ht⟩ := ih bs r₁ r₂ h1' h2' heq.2
      exact ⟨by rw [heq.1, hh], ht⟩

/-- The characters of a connection key:
`username ++ "@" ++ hostname ++ ":" ++ str(use_https)`. -/
theorem get_connection_key_data (hostname username : String) (useHttps : Bool) :
    (get_connection_key hostname username useHttps).data =
      username.data ++ '@' :: (hostname.data ++ ':' ::
        (if useHttps then "True" else "False").data) := by
  cases useHttps <;>
    simp [get_connection_key, String.data_append, List.append_assoc]

/-- `wfState` is preserved when `get_connection` stores a connection and
stamps its last-used time. -/
theorem wfState_store (k : String) (c : ApiConn) (now : Int) (st : RegState)
    (h : wfState st) :
    wfState { st with connections := aset k c st.connections
                      lastUsed := aset k now st.lastUsed } :=
  ⟨wfMap_aset _ _ h.1, wfMap_aset _ _ h.2.1, h.2.2.1, h.2.2.2⟩

/-- `wfState` is preserved by an in-place update of a pooled connection. -/
theorem wfState_aset_conn (k : String) (c : ApiConn) (st : RegState)
    (h : wfState st) :
    wfState { st with connections := aset k c st.connections } :=
  ⟨wfMap_aset _ _ h.1, h.2.1, h.2.2.1, h.2.2.2⟩

/-- The creation tail of `get_connection` preserves the registry
invariant. -/
theorem createConnection_wf (tn : String → Int → String) (hp : Bool) (now : Int)
    (np : Probe) (nl : LoginOutcome)
    (hostname username password : String) (secret : Option String)
    (useHttps validateCerts : Bool) (key : String) (st : RegState) (ev : List Event)
    (h : wfState st) :
    wfState (createConnection tn hp now np nl hostname username password secret
      useHttps validateCerts key st ev).state := by
  unfold createConnection
  rcases hca : check_auth np
      (initConn tn hp hostname username password secret useHttps validateCerts now)
    with ⟨r, c1⟩
  rcases r with e | b
  · simp only [hca]
    exact h
  · cases b
    · rcases hl : loginCall nl c1 with ⟨r2, c2⟩
      rcases r2 with e | lb
      · simp only [hca, hl, Bool.false_eq_true, if_false]
        exact h
      · simp only [hca, hl, Bool.false_eq_true, if_false]
        exact wfState_store _ _ _ _ h
    · simp only [hca, if_true]
      exact wfState_store _ _ _ _ h

/-- Claim C4 amended: the identity-key computation is injective on
(username, hostname, scheme) triples whose username contains no `"@"`
character (usernames with `"@"` can collide, see the counterexample);
and every `get_connection` call preserves the at-most-one-entry-per-key
registry invariant (the pool is a dict keyed by the identity key). -/
theorem connection_key_pooling_amended :
    (∀ (h₁ u₁ : String) (b₁ : Bool) (h₂ u₂ : String) (b₂ : Bool),
      '@' ∉ u₁.data → '@' ∉ u₂.data →
      get_connection_key h₁ u₁ b₁ = get_connection_key h₂ u₂ b₂ →
      h₁ = h₂ ∧ u₁ = u₂ ∧ b₁ = b₂) ∧
    (∀ (tn : String → Int → String) (hp : Bool) (now : Int)
      (pp : Probe) (pl : LoginOutcome) (np : Probe) (nl : LoginOutcome)
      (hostname username password : String) (secret : Option String)
      (useHttps validateCerts forceNew : Bool) (st : RegState),
      wfState st →
      wfState (get_connection tn hp now pp pl np nl hostname username password
        secret useHttps validateCerts forceNew st).state) := by
  constructor
  · intro h₁ u₁ b₁ h₂ u₂ b₂ hu₁ hu₂ heq
    have hdata := congrArg String.data heq
    rw [get_connection_key_data, get_connection_key_data] at hdata
    obtain ⟨huser, hrest⟩ := append_sep_inj _ _ _ _ hu₁ hu₂ hdata
    have hrev := congrArg List.reverse hrest
    simp only [List.reverse_append, List.reverse_cons, List.append_assoc,
      List.singleton_append] at hrev
    have hbool₁ : ':' ∉ ((if b₁ then "True" else "False") : String).data.reverse := by
      cases b₁ <;> decide
    have hbool₂ : ':' ∉ ((if b₂ then "True" else "False") : String).data.reverse := by
      cases b₂ <;> decide
    obtain ⟨hb, hh⟩ := append_sep_inj _ _ _ _ hbool₁ hbool₂ hrev
    have hhost : h₁ = h₂ := String.ext (List.reverse_injective hh)
    have hB := List.reverse_injective hb
    refine ⟨hhost, String.ext huser, ?_⟩
    revert hB
    cases b₁ <;> cases b₂ <;> intro hB <;> first | rfl | exact absurd hB (by decide)
  · intro tn hp now pp pl np nl hostname username password secret useHttps vc forceNew st hwf
    unfold get_connection
    rcases hmatch : (if forceNew then none
        else alookup (get_connection_key hostname username useHttps) st.connections)
      with _ | c
    · simp only [hmatch]
      exact createConnection_wf _ _ _ _ _ _ _ _ _ _ _ _ _ _ hwf
    · simp only [hmatch]
      rcases hca : check_auth pp c with ⟨r, c1⟩
      rcases r with e | b
      · simp only [hca]
        exact createConnection_wf _ _ _ _ _ _ _ _ _ _ _ _ _ _
          (wfState_aset_conn _ _ _ hwf)
      · cases b
        · rcases hl : loginCall pl c1 with ⟨r2, c2⟩
          rcases r2 with e | lb
          · simp only [hca, hl, Bool.false_eq_true, if_false]
            exact createConnection_wf _ _ _ _ _ _ _ _ _ _ _ _ _ _
              (wfState_aset_conn _ _ _ hwf)
          · cases lb
            · simp only [hca, hl, Bool.false_eq_true, if_false]
              exact createConnection_wf _ _ _ _ _ _ _ _ _ _ _ _ _ _
                (wfState_aset_conn _ _ _ hwf)
            · simp only [hca, hl, Bool.false_eq_true, if_false, if_true]
              exact wfState_store _ _ _ _ hwf
        · simp only [hca, if_true]
          exact wfState_store _ _ _ _ hwf

/-- Witness for C4 (amended): the injectivity implication applies at a
concrete `"@"`-free pair of identities, and a concrete `get_connection`
call preserves the registry invariant. -/
theorem connection_key_pooling_amended_witness :
    ("host" : String) = "host" ∧ ("alice" : String) = "alice" ∧ true = true := by
  exact connection_key_pooling_amended.1 "host" "alice" true "host" "alice" true
    (by decide) (by decide) rfl

/-- A concrete TOTP cache fixture holding a still-valid cached code for
secret `"S"`. -/
def cacheW : TotpState := ⟨["S"], [("S", "CACHED")], [("S", 1000)]⟩

/-- Counterexample to C2 as stated: the core does not obtain TOTP codes
from the TOTP Cache. At a concrete state whose cache holds a valid code
`"CACHED"` for the configured secret, the login credential is computed
directly from the engine (`"pwS10"`, not `"pwCACHED"` as the spec-side
cache-based definition yields), and the retry-time header regeneration
leaves the cache state unchanged, whereas `get_code(refresh=true)` would
have updated it. -/
theorem totp_not_from_cache :
    login_passwd tnW true "pw" (some "S") 10 = "pwS10" ∧
    login_passwd_spec tnW 30 true cacheW "pw" (some "S") 10 = .ok ("pwCACHED", cacheW) ∧
    ("pwS10" : String) ≠ "pwCACHED" ∧
    (retryRefreshCombined tnW true 10 connS cacheW).2 = cacheW ∧
    retryRefreshSpec tnW 30 true 10 connS cacheW =
      .ok ({ connS with headers := { user := "u", passwd := "pwS10" } },
        (⟨["S"], [("S", "S10")], [("S", 30)]⟩ : TotpState)) ∧
    (⟨["S"], [("S", "S10")], [("S", 30)]⟩ : TotpState) ≠ cacheW := by
  refine ⟨rfl, rfl, by decide, rfl, rfl, by decide⟩

/-- Claim C2 amended: whenever the core computes a TOTP credential — at
login and when the Retry Policy regenerates the authentication headers —
the code is computed directly with a fresh TOTP engine instance
(`pyotp.TOTP(secret).now()`) for the current time, outside the TOTP
Cache: the cache is neither consulted nor updated by these paths, and
login and header regeneration agree on the credential they derive. -/
theorem totp_direct_computation (tn : String → Int → String) (hp : Bool)
    (t now : Int) (c : ApiConn) (cache : TotpState)
    (username password : String) (secret : Option String) :
    (retryRefreshCombined tn hp t c cache).2 = cache ∧
    (retryRefreshCombined tn hp t c cache).1 =
      { c with headers := get_auth_headers tn hp c.username c.password c.secret t } ∧
    login_passwd tn hp password secret now =
      (get_auth_headers tn hp username password secret now).passwd := by
  refine ⟨rfl, rfl, ?_⟩
  cases secret with
  | none => rfl
  | some s => rfl

theorem chainConn_shift {α : Type} (tn : String → Int → String) (hp : Bool) (t : Nat → Int)
    (op : Nat → ApiConn → Except String α × ApiConn) (c : ApiConn) (i : Nat) :
    ∀ j, chainConn tn hp t op (retryRefresh tn hp (t i) (op i c).2) (i + 1) j =
      chainConn tn hp t op c i (j + 1) := by
  intro j
  induction j with
  | zero => rfl
  | succ j ih =>
    simp only [chainConn, ih]
    have hidx : i + 1 + j = i + (j + 1) := by omega
    rw [hidx]

/-- The wrapper of `retry_with_new_totp` stops at the first attempt that
either succeeds, fails without the TOTP signature, or exhausts the
budget; every earlier attempt was a signature failure, and the header
refresh chain links consecutive attempts. -/
theorem retryGo_spec {α : Type} (tn : String → Int → String) (hp : Bool) (t : Nat → Int)
    (op : Nat → ApiConn → Except String α × ApiConn) :
    ∀ (b i : Nat) (c : ApiConn),
    ∃ j, j ≤ b ∧
      retryGo tn hp t op b i c = op (i + j) (chainConn tn hp t op c i j) ∧
      (∀ k, k < j → sigFailure (op (i + k) (chainConn tn hp t op c i k)) = true) ∧
      (sigFailure (op (i + j) (chainConn tn hp t op c i j)) = false ∨ j = b) := by
  intro b
  induction b with
  | zero =>
    intro i c
    exact ⟨0, le_refl 0, rfl, fun k hk => absurd hk (Nat.not_lt_zero k), Or.inr rfl⟩
  | succ b ih =>
    intro i c
    rcases hop : op i c with ⟨r, c'⟩
    rcases r with e | a
    · by_cases hsig : totpRetrySignature e = true
      · obtain ⟨j, hj, heq, hpre, hlast⟩ := ih (i + 1) (retryRefresh tn hp (t i) c')
        have hshift : ∀ k, chainConn tn hp t op (retryRefresh tn hp (t i) c') (i + 1) k =
            chainConn tn hp t op c i (k + 1) := by
          intro k
          have hd : c' = (op i c).2 := by rw [hop]
          rw [hd]
          exact chainConn_shift tn hp t op c i k
        refine ⟨j + 1, by omega, ?_, ?_, ?_⟩
        · have h1 : retryGo tn hp t op (b + 1) i c =
              retryGo tn hp t op b (i + 1) (retryRefresh tn hp (t i) c') := by
            simp [retryGo, hop, hsig]
          rw [h1, heq, hshift j]
          have hidx : i + 1 + j = i + (j + 1) := by omega
          rw [hidx]
        · intro k hk
          cases k with
          | zero =>
            simp only [Nat.add_zero, chainConn, sigFailure, hop]
            exact hsig
          | succ k' =>
            have h2 := hpre k' (by omega)
            rw [hshift k'] at h2
            have hidx : i + 1 + k' = i + (k' + 1) := by omega
            rw [hidx] at h2
            exact h2
        · rcases hlast with hl | hl
          · left
            rw [hshift j] at hl
            have hidx : i + 1 + j = i + (j + 1) := by omega
            rw [hidx] at hl
            exact hl
          · right
            omega
      · refine ⟨0, Nat.zero_le _, ?_, fun k hk => absurd hk (Nat.not_lt_zero k), Or.inl ?_⟩
        · simp [retryGo, hop, hsig, chainConn]
        · simp only [Nat.add_zero, chainConn, sigFailure, hop]
          exact Bool.eq_false_iff.mpr hsig
    · refine ⟨0, Nat.zero_le _, ?_, fun k hk => absurd hk (Nat.not_lt_zero k), Or.inl ?_⟩
      · simp [retryGo, hop, chainConn]
      · simp only [Nat.add_zero, chainConn, sigFailure, hop]

/-- Classification of the 401/403 authentication failures raised by
`_handle_response`: the retry signature is carried exactly by HTTP 403
with a secret configured and the engine available. -/
theorem handle_response_classification (tn : String → Int → String) (hp : Bool)
    (now : Int) (c : ApiConn) (resp : HttpResponse) (expected : Nat)
    (m : String) (c'' : ApiConn)
    (hresp : handle_response tn hp now c resp expected = (.error m, c''))
    (hstatus : resp.statusCode = 401 ∨ resp.statusCode = 403) :
    totpRetrySignature m = true ↔
      (resp.statusCode = 403 ∧ secretConfigured hp c.secret = true) := by
  rcases hstatus with h | h
  · rw [handle_response, if_pos h] at hresp
    have hm := congrArg Prod.fst hresp
    simp only [Except.error.injEq] at hm
    subst hm
    constructor
    · intro hsig
      exact absurd hsig (by decide)
    · rintro ⟨h403, -⟩
      rw [h] at h403
      exact absurd h403 (by decide)
  · have hne : resp.statusCode ≠ 401 := by rw [h]; decide
    rw [handle_response, if_neg hne, if_pos h] at hresp
    by_cases hcfg : secretConfigured hp c.secret = true
    · rw [if_pos hcfg] at hresp
      have hm := congrArg Prod.fst hresp
      simp only [Except.error.injEq] at hm
      subst hm
      constructor
      · intro _
        exact ⟨h, hcfg⟩
      · intro _
        decide
    · rw [if_neg hcfg] at hresp
      have hm := congrArg Prod.fst hresp
      simp only [Except.error.injEq] at hm
      subst hm
      constructor
      · intro hsig
        exact absurd hsig (by decide)
      · rintro ⟨-, hc⟩
        exact absurd hc hcfg

/-- Counterexample to C1 as stated: the retry predicate is a substring
test on the error message, so a failure that does not carry the
second-factor-expired signature can still be retried. A response with
HTTP status 500 whose server-supplied error text contains the marker
produces a `PiKVMAPIError` that the wrapper retries — the operation then
succeeds on the second attempt instead of the failure being propagated
unchanged. -/
theorem retry_spoofed_message :
    (handle_response tnW true 0 connS
        ⟨500, some ⟨none, some "TOTP might have expired"⟩, "", true⟩ 200).1 =
      .error "API request failed: TOTP might have expired" ∧
    (500 : Nat) ≠ 403 ∧
    (retry_with_new_totp tnW true (fun _ => 0) 1
      (fun i c =>
        if i = 0 then (.error "API request failed: TOTP might have expired", c)
        else (.ok (0 : Nat), c))
      connS).1 = .ok 0 := by
  refine ⟨rfl, by decide, rfl⟩

/-- Claim C1 amended: per wrapped call the budgeted state machine holds —
the wrapper returns the outcome of the first attempt that succeeds, fails
without the retry signature, or exhausts the budget (default 1), with
every earlier attempt a signature failure followed by a header refresh;
and among the 401/403 authentication failures raised by
`_handle_response` the retry signature is carried exactly by HTTP 403
with a TOTP secret configured (and the engine available), so
`AuthenticationRequired` (401) and plain credential rejection (403
without a configured secret) are never retried. (As the counterexample
shows, the signature is a substring test, so a non-authentication failure
whose server-supplied text contains the marker is also retried.) -/
theorem retry_policy_state_machine {α : Type} (tn : String → Int → String) (hp : Bool)
    (t : Nat → Int) (op : Nat → ApiConn → Except String α × ApiConn)
    (maxRetries : Nat) (c : ApiConn) :
    (∃ j, j ≤ maxRetries ∧
      retry_with_new_totp tn hp t maxRetries op c = op j (chainConn tn hp t op c 0 j) ∧
      (∀ k, k < j → sigFailure (op k (chainConn tn hp t op c 0 k)) = true) ∧
      (sigFailure (op j (chainConn tn hp t op c 0 j)) = false ∨ j = maxRetries)) ∧
    (∀ (now : Int) (c' : ApiConn) (resp : HttpResponse) (expected : Nat)
      (m : String) (c'' : ApiConn),
      handle_response tn hp now c' resp expected = (.error m, c'') →
      resp.statusCode = 401 ∨ resp.statusCode = 403 →
      (totpRetrySignature m = true ↔
        (resp.statusCode = 403 ∧ secretConfigured hp c'.secret = true))) := by
  constructor
  · obtain ⟨j, hj, heq, hpre, hlast⟩ := retryGo_spec tn hp t op maxRetries 0 c
    simp only [Nat.zero_add] at heq hpre hlast
    exact ⟨j, hj, heq, hpre, hlast⟩
  · intro now c' resp expected m c'' hresp hstatus
    exact handle_response_classification tn hp now c' resp expected m c'' hresp hstatus

/-- Witness for C1 (amended): the classification applies at a concrete
403-with-secret response, whose raised message carries the retry
signature. -/
theorem retry_policy_state_machine_witness :
    totpRetrySignature "Authentication failed - TOTP might have expired" = true := by
  have h := (retry_policy_state_machine (α := Nat) tnW true (fun _ => 0)
    (fun _ c => (.ok 0, c)) 1 connS).2 0 connS ⟨403, none, "", false⟩ 200
    "Authentication failed - TOTP might have expired"
    { connS with headers := { user := "u", passwd := "pwS0" } } rfl (Or.inr rfl)
  exact h.mpr ⟨rfl, rfl⟩

theorem wfState_removeKey (k : String) (st : RegState) (h : wfState st) :
    wfState (removeKey k st) :=
  ⟨wfMap_aerase _ h.1, wfMap_aerase _ h.2.1, wfMap_aerase _ h.2.2.1, wfMap_aerase _ h.2.2.2⟩

theorem length_filter_akeys {α : Type} (f : String → Bool) (l : List (String × α)) :
    ((akeys l).filter f).length = (l.filter (fun p => f p.1)).length := by
  induction l with
  | nil => rfl
  | cons p t ih =>
    simp only [akeys, List.map_cons] at ih ⊢
    by_cases hf : f p.1 <;> simp [List.filter_cons, hf, ih]

/-- The eviction loop removes, from every registry dict, exactly the
entries whose key is in the snapshot and stale, and counts/records the
removed keys in snapshot order. -/
theorem cleanLoop_spec (posts : String → Except String Nat) (current maxIdle : Int) :
    ∀ (ks : List String) (st : RegState), ks.Nodup → wfState st →
    (cleanLoop posts current maxIdle ks st).1.connections =
      st.connections.filter
        (fun p => !(decide (p.1 ∈ ks) && connStale current maxIdle st.lastUsed p.1)) ∧
    (cleanLoop posts current maxIdle ks st).1.lastUsed =
      st.lastUsed.filter
        (fun p => !(decide (p.1 ∈ ks) && connStale current maxIdle st.lastUsed p.1)) ∧
    (cleanLoop posts current maxIdle ks st).1.tokens =
      st.tokens.filter
        (fun p => !(decide (p.1 ∈ ks) && connStale current maxIdle st.lastUsed p.1)) ∧
    (cleanLoop posts current maxIdle ks st).1.tokenExpiry =
      st.tokenExpiry.filter
        (fun p => !(decide (p.1 ∈ ks) && connStale current maxIdle st.lastUsed p.1)) ∧
    (cleanLoop posts current maxIdle ks st).2.1 =
      (ks.filter (connStale current maxIdle st.lastUsed)).length ∧
    (cleanLoop posts current maxIdle ks st).2.2 =
      ks.filter (connStale current maxIdle st.lastUsed) := by
  intro ks
  induction ks with
  | nil =>
    intro st _ _
    simp [cleanLoop]
  | cons k ks ih =>
    intro st hnd hwf
    have hkks : k ∉ ks := (List.nodup_cons.1 hnd).1
    have hnd' : ks.Nodup := (List.nodup_cons.1 hnd).2
    by_cases hstale : connStale current maxIdle st.lastUsed k = true
    · have hwf' : wfState (removeKey k st) := wfState_removeKey k st hwf
      obtain ⟨h1, h2, h3, h4, h5, h6⟩ := ih (removeKey k st) hnd' hwf'
      have hstale_eq : ∀ k', k' ≠ k →
          connStale current maxIdle (removeKey k st).lastUsed k' =
            connStale current maxIdle st.lastUsed k' := by
        intro k' hne
        simp only [removeKey, connStale, alookup_aerase_ne _ hne]
      have hloop : cleanLoop posts current maxIdle (k :: ks) st =
          ((cleanLoop posts current maxIdle ks (removeKey k st)).1,
           (cleanLoop posts current maxIdle ks (removeKey k st)).2.1 + 1,
           k :: (cleanLoop posts current maxIdle ks (removeKey k st)).2.2) := by
        simp [cleanLoop, hstale]
      have hfilters : ks.filter (connStale current maxIdle (removeKey k st).lastUsed) =
          ks.filter (connStale current maxIdle st.lastUsed) := by
        apply List.filter_congr
        intro k' hk'
        exact hstale_eq k' (fun he => hkks (he ▸ hk'))
      have hmain : ∀ {α : Type} (l : List (String × α)), wfMap l →
          (aerase k l).filter
            (fun p => !(decide (p.1 ∈ ks) &&
              connStale current maxIdle (removeKey k st).lastUsed p.1)) =
          l.filter
            (fun p => !(decide (p.1 ∈ k :: ks) &&
              connStale current maxIdle st.lastUsed p.1)) := by
        intro α l hl
        rw [aerase_eq_filter k hl, List.filter_filter]
        apply List.filter_congr
        intro p _
        by_cases hpk : p.1 = k
        · simp [hpk, hstale, List.mem_cons]
        · simp [hpk, List.mem_cons, hstale_eq p.1 hpk]
      refine ⟨?_, ?_, ?_, ?_, ?_, ?_⟩
      · rw [hloop]
        exact (h1.trans (hmain st.connections hwf.1))
      · rw [hloop]
        exact (h2.trans (hmain st.lastUsed hwf.2.1))
      · rw [hloop]
        exact (h3.trans (hmain st.tokens hwf.2.2.1))
      · rw [hloop]
        exact (h4.trans (hmain st.tokenExpiry hwf.2.2.2))
      · rw [hloop]
        simp only [h5, hfilters, List.filter_cons, hstale, if_true, List.length_cons]
      · rw [hloop]
        simp only [h6, hfilters, List.filter_cons, hstale, if_true]
    · obtain ⟨h1, h2, h3, h4, h5, h6⟩ := ih st hnd' hwf
      have hloop : cleanLoop posts current maxIdle (k :: ks) st =
          cleanLoop posts current maxIdle ks st := by
        simp [cleanLoop, hstale]
      have hmain : ∀ {α : Type} (l : List (String × α)),
          l.filter
            (fun p => !(decide (p.1 ∈ ks) && connStale current maxIdle st.lastUsed p.1)) =
          l.filter
            (fun p => !(decide (p.1 ∈ k :: ks) && connStale current maxIdle st.lastUsed p.1)) := by
        intro α l
        apply List.filter_congr
        intro p _
        by_cases hpk : p.1 = k
        · simp [hpk, hstale, List.mem_cons, hkks]
        · simp [hpk, List.mem_cons]
      refine ⟨?_, ?_, ?_, ?_, ?_, ?_⟩
      · rw [hloop]
        exact (h1.trans (hmain st.connections))
      · rw [hloop]
        exact (h2.trans (hmain st.lastUsed))
      · rw [hloop]
        exact (h3.trans (hmain st.tokens))
      · rw [hloop]
        exact (h4.trans (hmain st.tokenExpiry))
      · rw [hloop]
        simp only [h5, List.filter_cons, hstale, Bool.false_eq_true, if_false]
      · rw [hloop]
        simp only [h6, List.filter_cons, hstale, Bool.false_eq_true, if_false]

/-- A sweep over keys none of which is stale changes nothing. -/
theorem cleanLoop_noop (posts : String → Except String Nat) (current maxIdle : Int) :
    ∀ (ks : List String) (st : RegState),
    (∀ k, k ∈ ks → connStale current maxIdle st.lastUsed k = false) →
    cleanLoop posts current maxIdle ks st = (st, 0, []) := by
  intro ks
  induction ks with
  | nil =>
    intro st _
    rfl
  | cons k ks ih =>
    intro st h
    have hk := h k (List.mem_cons_self k ks)
    have hrest := ih st (fun k' hk' => h k' (List.mem_cons_of_mem k hk'))
    simp [cleanLoop, hk, hrest]

/-- Claim C6: `clean_unused_connections(max_idle)` removes exactly the
pooled entries whose last-used stamp is strictly older than `max_idle`
seconds before the call, leaves every other entry untouched (including
its last-used stamp), returns the number removed, and an immediately
repeated call removes nothing. -/
theorem clean_unused_connections_spec (posts posts' : String → Except String Nat)
    (current maxIdle : Int) (st : RegState) (hwf : wfState st) :
    (clean_unused_connections posts current maxIdle st).1.connections =
      st.connections.filter (fun p => !connStale current maxIdle st.lastUsed p.1) ∧
    (clean_unused_connections posts current maxIdle st).2.1 =
      (st.connections.filter (fun p => connStale current maxIdle st.lastUsed p.1)).length ∧
    (∀ k, connStale current maxIdle st.lastUsed k = false →
      alookup k (clean_unused_connections posts current maxIdle st).1.lastUsed =
        alookup k st.lastUsed) ∧
    clean_unused_connections posts' current maxIdle
        (clean_unused_connections posts current maxIdle st).1 =
      ((clean_unused_connections posts current maxIdle st).1, 0, []) := by
  obtain ⟨h1, h2, h3, h4, h5, h6⟩ :=
    cleanLoop_spec posts current maxIdle (akeys st.connections) st hwf.1 hwf
  have hconn : (clean_unused_connections posts current maxIdle st).1.connections =
      st.connections.filter (fun p => !connStale current maxIdle st.lastUsed p.1) := by
    rw [clean_unused_connections, h1]
    apply List.filter_congr
    intro p hp
    have hmem : p.1 ∈ akeys st.connections := List.mem_map_of_mem Prod.fst hp
    simp [hmem]
  have hlu : ∀ k, connStale current maxIdle st.lastUsed k = false →
      alookup k (clean_unused_connections posts current maxIdle st).1.lastUsed =
        alookup k st.lastUsed := by
    intro k hk
    rw [clean_unused_connections, h2]
    have := alookup_filter k
      (fun s => !(decide (s ∈ akeys st.connections) && connStale current maxIdle st.lastUsed s))
      st.lastUsed
    rw [this, hk]
    simp
  refine ⟨hconn, ?_, hlu, ?_⟩
  · rw [clean_unused_connections, h5, length_filter_akeys]
  · apply cleanLoop_noop
    intro k hk
    rw [hconn] at hk
    obtain ⟨p, hpmem, hpk⟩ := List.mem_map.1 hk
    have hfilter := List.mem_filter.1 hpmem
    have hstale : connStale current maxIdle st.lastUsed p.1 = false := by
      have := hfilter.2
      simpa using this
    rw [← hpk]
    have hagree := hlu p.1 hstale
    unfold connStale
    rw [hagree]
    exact hstale

/-- Witness for C6: on a concrete registry with one stale and one fresh
entry, the sweep removes exactly the stale one. -/
theorem clean_unused_connections_spec_witness :
    wfState ⟨[("a", connA), ("b", connB)], [("a", 0), ("b", 90)], [], []⟩ ∧
    (clean_unused_connections (fun _ => .ok 200) 100 50
      ⟨[("a", connA), ("b", connB)], [("a", 0), ("b", 90)], [], []⟩).2.1 = 1 := by
  constructor
  · decide
  · have h := (clean_unused_connections_spec (fun _ => .ok 200) (fun _ => .ok 200) 100 50
      ⟨[("a", connA), ("b", connB)], [("a", 0), ("b", 90)], [], []⟩ (by decide)).2.1
    rw [h]
    rfl

/-- A `check_auth` whose probes both answer HTTP 200 reports success and
leaves the client untouched. -/
theorem check_auth_ok_of_200 (p : Probe) (c : ApiConn)
    (ht : p.tokenStatus = .ok 200) (hh : p.headerStatus = .ok 200) :
    check_auth p c = (.ok true, c) := by
  cases hc : c.authToken with
  | none => simp [check_auth, hc, hh]
  | some tok => simp [check_auth, hc, ht]

/-- A pooled-cache hit: with an entry present, `force_new` false and a
succeeding probe, `get_connection` returns the pooled object and only
stamps its last-used time. -/
theorem get_connection_hit (tn : String → Int → String) (hp : Bool) (now : Int)
    (p : Probe) (l : LoginOutcome) (np : Probe) (nl : LoginOutcome)
    (hostname username password : String) (secret : Option String)
    (useHttps validateCerts : Bool) (st : RegState) (c : ApiConn)
    (hlookup : alookup (get_connection_key hostname username useHttps) st.connections = some c)
    (ht : p.tokenStatus = .ok 200) (hh : p.headerStatus = .ok 200) :
    get_connection tn hp now p l np nl hostname username password secret
        useHttps validateCerts false st =
      { result := .ok c
        state := { st with lastUsed := aset (get_connection_key hostname username useHttps) now st.lastUsed }
        events := [.checkAuth]
        displaced := none } := by
  unfold get_connection
  simp only [Bool.false_eq_true, if_false, hlookup, check_auth_ok_of_200 p c ht hh,
    if_true, aset_of_alookup_eq hlookup]

/-- Claim C7: two successive `get_connection` calls with identical
identity and `force_new=false`, whose authentication probes report
success, return the same pooled handle both times, perform no login and
no creation (the only transport call is the probe), and update nothing in
the registry except the entry's last-used timestamp. -/
theorem get_connection_reuse (tn : String → Int → String) (hp : Bool) (now₁ now₂ : Int)
    (p₁ p₂ : Probe) (l₁ l₂ : LoginOutcome) (np₁ np₂ : Probe) (nl₁ nl₂ : LoginOutcome)
    (hostname username password : String) (secret : Option String)
    (useHttps validateCerts : Bool) (st : RegState) (c : ApiConn)
    (hlookup : alookup (get_connection_key hostname username useHttps) st.connections = some c)
    (ht₁ : p₁.tokenStatus = .ok 200) (hh₁ : p₁.headerStatus = .ok 200)
    (ht₂ : p₂.tokenStatus = .ok 200) (hh₂ : p₂.headerStatus = .ok 200) :
    get_connection tn hp now₁ p₁ l₁ np₁ nl₁ hostname username password secret
        useHttps validateCerts false st =
      { result := .ok c
        state := { st with lastUsed := aset (get_connection_key hostname username useHttps) now₁ st.lastUsed }
        events := [.checkAuth]
        displaced := none } ∧
    get_connection tn hp now₂ p₂ l₂ np₂ nl₂ hostname username password secret
        useHttps validateCerts false
        { st with lastUsed := aset (get_connection_key hostname username useHttps) now₁ st.lastUsed } =
      { result := .ok c
        state := { st with lastUsed := aset (get_connection_key hostname username useHttps) now₂ st.lastUsed }
        events := [.checkAuth]
        displaced := none } := by
  constructor
  · exact get_connection_hit tn hp now₁ p₁ l₁ np₁ nl₁ hostname username password secret
      useHttps validateCerts st c hlookup ht₁ hh₁
  · have h := get_connection_hit tn hp now₂ p₂ l₂ np₂ nl₂ hostname username password secret
      useHttps validateCerts
      { st with lastUsed := aset (get_connection_key hostname username useHttps) now₁ st.lastUsed } c
      hlookup ht₂ hh₂
    rw [h]
    simp [aset_aset]

/-- Witness for C7: on a concrete one-entry registry both calls return
the pooled handle and only the last-used stamp moves. -/
theorem get_connection_reuse_witness :
    (get_connection tnW true 50 ⟨.ok 200, .ok 200⟩ ⟨.ok 200, none⟩ ⟨.ok 200, .ok 200⟩
      ⟨.ok 200, none⟩ "h" "u" "pw" (some "S") true false false
      ⟨[("u@h:True", connS)], [("u@h:True", 0)], [], []⟩).result = .ok connS ∧
    (get_connection tnW true 60 ⟨.ok 200, .ok 200⟩ ⟨.ok 200, none⟩ ⟨.ok 200, .ok 200⟩
      ⟨.ok 200, none⟩ "h" "u" "pw" (some "S") true false false
      ⟨[("u@h:True", connS)], [("u@h:True", 50)], [], []⟩).result = .ok connS := by
  have h := get_connection_reuse tnW true 50 60 ⟨.ok 200, .ok 200⟩ ⟨.ok 200, .ok 200⟩
    ⟨.ok 200, none⟩ ⟨.ok 200, none⟩ ⟨.ok 200, .ok 200⟩ ⟨.ok 200, .ok 200⟩
    ⟨.ok 200, none⟩ ⟨.ok 200, none⟩ "h" "u" "pw" (some "S") true false
    ⟨[("u@h:True", connS)], [("u@h:True", 0)], [], []⟩ connS rfl rfl rfl rfl rfl
  exact ⟨congrArg GetConnResult.result h.1, congrArg GetConnResult.result h.2⟩

/-- Whether an operation completed without raising. -/
def exceptOk {ε α : Type} : Except ε α → Bool
  | .ok _ => true
  | .error _ => false

/-- The only in-place mutation a `check_auth` call can make is clearing
the client-side session token. -/
theorem check_auth_frame (p : Probe) (c : ApiConn) :
    (check_auth p c).2 = c ∨ (check_auth p c).2 = { c with authToken := none } := by
  cases hc : c.authToken with
  | none =>
    left
    cases hh : p.headerStatus <;> simp [check_auth, hc, hh]
  | some tok =>
    cases ht : p.tokenStatus with
    | error e =>
      left
      simp [check_auth, hc, ht]
    | ok s =>
      by_cases hs : s = 200
      · left
        simp [check_auth, hc, ht, hs]
      · right
        cases hh : p.headerStatus <;> simp [check_auth, hc, ht, hs, hh]

/-- A login that does not succeed leaves the client untouched. -/
theorem loginCall_frame (lo : LoginOutcome) (c : ApiConn)
    (h : (loginCall lo c).1 ≠ .ok true) : (loginCall lo c).2 = c := by
  cases hs : lo.status with
  | error e => simp [loginCall, hs]
  | ok s =>
    by_cases h200 : s = 200
    · exact absurd (by simp [loginCall, hs, h200]) h
    · simp [loginCall, hs, h200]

/-- When the fresh client's probe/login do not raise, the creation tail
stores the new client under the key (recording what it displaced), stamps
the key's last-used time, and performs no logout. -/
theorem createConnection_complete (tn : String → Int → String) (hp : Bool) (now : Int)
    (np : Probe) (nl : LoginOutcome)
    (hostname username password : String) (secret : Option String)
    (useHttps validateCerts : Bool) (key : String) (st : RegState) (ev : List Event)
    (r : GetConnResult)
    (hr : r = createConnection tn hp now np nl hostname username password secret
      useHttps validateCerts key st ev)
    (hnew1 : exceptOk (check_auth np
      (initConn tn hp hostname username password secret useHttps validateCerts now)).1 = true)
    (hnew2 : (check_auth np
        (initConn tn hp hostname username password secret useHttps validateCerts now)).1 =
        .ok false →
      exceptOk (loginCall nl (check_auth np
        (initConn tn hp hostname username password secret useHttps validateCerts now)).2).1 =
        true) :
    exceptOk r.result = true ∧
    r.displaced = alookup key st.connections ∧
    r.state.lastUsed = aset key now st.lastUsed ∧
    alookup key r.state.connections = r.result.toOption ∧
    (r.events = ev ++ [.create, .checkAuth] ∨
      r.events = ev ++ [.create, .checkAuth, .login]) := by
  subst hr
  rcases hnca : check_auth np
      (initConn tn hp hostname username password secret useHttps validateCerts now)
    with ⟨r2, c2⟩
  rcases r2 with e2 | b2
  · rw [hnca] at hnew1
    exact absurd hnew1 (by simp [exceptOk])
  · cases b2
    · have hlog := hnew2 (by rw [hnca])
      rw [hnca] at hlog
      rcases hnl : loginCall nl c2 with ⟨r3, c3⟩
      rcases r3 with e3 | b3
      · rw [hnl] at hlog
        exact absurd hlog (by simp [exceptOk])
      · have hred : createConnection tn hp now np nl hostname username password secret
            useHttps validateCerts key st ev =
            { result := .ok c3
              state := { st with connections := aset key c3 st.connections
                                 lastUsed := aset key now st.lastUsed }
              events := ev ++ [.create, .checkAuth, .login]
              displaced := alookup key st.connections } := by
          simp [createConnection, hnca, hnl]
        rw [hred]
        refine ⟨rfl, rfl, rfl, ?_, Or.inr rfl⟩
        rw [alookup_aset_self]
        rfl
    · have hred : createConnection tn hp now np nl hostname username password secret
          useHttps validateCerts key st ev =
          { result := .ok c2
            state := { st with connections := aset key c2 st.connections
                               lastUsed := aset key now st.lastUsed }
            events := ev ++ [.create, .checkAuth]
            displaced := alookup key st.connections } := by
        simp [createConnection, hnca]
      rw [hred]
      refine ⟨rfl, rfl, rfl, ?_, Or.inl rfl⟩
      rw [alookup_aset_self]
      rfl

/-- Counterexample to C10 as stated: when the pooled probe fails and held
a session token, the displaced handle's state is not left unchanged — the
failed `check_auth` has cleared its client-side `auth_token` in place
before the overwrite (no logout is invoked, as the claim says). -/
theorem stale_overwrite_clears_token :
    (get_connection tnW true 50 ⟨.ok 403, .ok 403⟩ ⟨.ok 403, none⟩ ⟨.ok 200, .ok 200⟩
      ⟨.ok 200, none⟩ "h" "u" "pw" (some "S") true false false
      ⟨[("u@h:True", connS)], [("u@h:True", 0)], [], []⟩).displaced =
      some { connS with authToken := none } ∧
    ({ connS with authToken := none } : ApiConn) ≠ connS ∧
    Event.logout ∉ (get_connection tnW true 50 ⟨.ok 403, .ok 403⟩ ⟨.ok 403, none⟩
      ⟨.ok 200, .ok 200⟩ ⟨.ok 200, none⟩ "h" "u" "pw" (some "S") true false false
      ⟨[("u@h:True", connS)], [("u@h:True", 0)], [], []⟩).events := by
  refine ⟨rfl, by decide, by decide⟩

/-- Claim C10 amended: when `get_connection` (with `force_new=false`)
finds a pooled entry whose probe does not succeed and whose one re-login
attempt (when reached) does not succeed, and the fresh client's own
probe/login do not raise, then a new handle is constructed and overwrites
the pool entry, logout is never invoked on the displaced handle, and the
displaced handle is left unchanged except that its client-side session
token may have been cleared in place by the failed probe. -/
theorem stale_overwrite_frame (tn : String → Int → String) (hp : Bool) (now : Int)
    (pp : Probe) (pl : LoginOutcome) (np : Probe) (nl : LoginOutcome)
    (hostname username password : String) (secret : Option String)
    (useHttps validateCerts : Bool) (st : RegState) (c : ApiConn) (r : GetConnResult)
    (hlookup : alookup (get_connection_key hostname username useHttps) st.connections = some c)
    (hr : r = get_connection tn hp now pp pl np nl hostname username password secret
      useHttps validateCerts false st)
    (hprobe : (check_auth pp c).1 ≠ .ok true)
    (hlogin : (check_auth pp c).1 = .ok false →
      (loginCall pl (check_auth pp c).2).1 ≠ .ok true)
    (hnew1 : exceptOk (check_auth np
      (initConn tn hp hostname username password secret useHttps validateCerts now)).1 = true)
    (hnew2 : (check_auth np
        (initConn tn hp hostname username password secret useHttps validateCerts now)).1 =
        .ok false →
      exceptOk (loginCall nl (check_auth np
        (initConn tn hp hostname username password secret useHttps validateCerts now)).2).1 =
        true) :
    Event.logout ∉ r.events ∧
    Event.create ∈ r.events ∧
    r.displaced = some (check_auth pp c).2 ∧
    ((check_auth pp c).2 = c ∨ (check_auth pp c).2 = { c with authToken := none }) ∧
    exceptOk r.result = true ∧
    alookup (get_connection_key hostname username useHttps) r.state.connections =
      r.result.toOption ∧
    r.state.lastUsed = aset (get_connection_key hostname username useHttps) now st.lastUsed := by
  have hframe := check_auth_frame pp c
  rcases hca : check_auth pp c with ⟨r1, c1⟩
  rw [hca] at hframe hprobe hlogin
  rcases r1 with e1 | b1
  · have hgc : r = createConnection tn hp now np nl hostname username password secret
        useHttps validateCerts (get_connection_key hostname username useHttps)
        { st with connections := aset (get_connection_key hostname username useHttps) c1 st.connections }
        [.checkAuth] := by
      rw [hr]
      unfold get_connection
      simp only [Bool.false_eq_true, if_false, hlookup, hca]
    obtain ⟨h1, h2, h3, h4, h5⟩ := createConnection_complete tn hp now np nl hostname
      username password secret useHttps validateCerts _ _ _ r hgc hnew1 hnew2
    rw [alookup_aset_self] at h2
    refine ⟨?_, ?_, h2, hframe, h1, h4, h3⟩
    · rcases h5 with h | h <;> simp [h]
    · rcases h5 with h | h <;> simp [h]
  · cases b1
    · have hnl := hlogin rfl
      have hc2 : (loginCall pl c1).2 = c1 := loginCall_frame pl c1 hnl
      rcases hlc : loginCall pl c1 with ⟨r2, c2⟩
      rw [hlc] at hnl hc2
      rcases r2 with e2 | b2
      · have hgc : r = createConnection tn hp now np nl hostname username password secret
            useHttps validateCerts (get_connection_key hostname username useHttps)
            { st with connections := aset (get_connection_key hostname username useHttps) c2 st.connections }
            [.checkAuth, .login] := by
          rw [hr]
          unfold get_connection
          simp only [Bool.false_eq_true, if_false, hlookup, hca, hlc]
        obtain ⟨h1, h2, h3, h4, h5⟩ := createConnection_complete tn hp now np nl hostname
          username password secret useHttps validateCerts _ _ _ r hgc hnew1 hnew2
        rw [alookup_aset_self] at h2
        rw [show c2 = c1 from hc2] at h2
        refine ⟨?_, ?_, h2, hframe, h1, h4, h3⟩
        · rcases h5 with h | h <;> simp [h]
        · rcases h5 with h | h <;> simp [h]
      · cases b2
        · have hgc : r = createConnection tn hp now np nl hostname username password secret
              useHttps validateCerts (get_connection_key hostname username useHttps)
              { st with connections := aset (get_connection_key hostname username useHttps) c2 st.connections }
              [.checkAuth, .login] := by
            rw [hr]
            unfold get_connection
            simp only [Bool.false_eq_true, if_false, hlookup, hca, hlc]
          obtain ⟨h1, h2, h3, h4, h5⟩ := createConnection_complete tn hp now np nl hostname
            username password secret useHttps validateCerts _ _ _ r hgc hnew1 hnew2
          rw [alookup_aset_self] at h2
          rw [show c2 = c1 from hc2] at h2
          refine ⟨?_, ?_, h2, hframe, h1, h4, h3⟩
          · rcases h5 with h | h <;> simp [h]
          · rcases h5 with h | h <;> simp [h]
        · exact absurd rfl hnl
    · exact absurd rfl hprobe

/-- Witness for C10 (amended): the frame theorem applies at the concrete
run of the counterexample scenario. -/
theorem stale_overwrite_frame_witness :
    Event.logout ∉ (get_connection tnW true 50 ⟨.ok 403, .ok 403⟩ ⟨.ok 403, none⟩
      ⟨.ok 200, .ok 200⟩ ⟨.ok 200, none⟩ "h" "u" "pw" (some "S") true false false
      ⟨[("u@h:True", connS)], [("u@h:True", 0)], [], []⟩).events ∧
    (get_connection tnW true 50 ⟨.ok 403, .ok 403⟩ ⟨.ok 403, none⟩
      ⟨.ok 200, .ok 200⟩ ⟨.ok 200, none⟩ "h" "u" "pw" (some "S") true false false
      ⟨[("u@h:True", connS)], [("u@h:True", 0)], [], []⟩).displaced =
      some (check_auth ⟨.ok 403, .ok 403⟩ connS).2 := by
  have h := stale_overwrite_frame tnW true 50 ⟨.ok 403, .ok 403⟩ ⟨.ok 403, none⟩
    ⟨.ok 200, .ok 200⟩ ⟨.ok 200, none⟩ "h" "u" "pw" (some "S") true false
    ⟨[("u@h:True", connS)], [("u@h:True", 0)], [], []⟩ connS
    (get_connection tnW true 50 ⟨.ok 403, .ok 403⟩ ⟨.ok 403, none⟩
      ⟨.ok 200, .ok 200⟩ ⟨.ok 200, none⟩ "h" "u" "pw" (some "S") true false false
      ⟨[("u@h:True", connS)], [("u@h:True", 0)], [], []⟩)
    rfl rfl (by decide) (fun _ => by decide) (by decide) (fun _ => by decide)
  exact ⟨h.1, h.2.2.1⟩

end PiKVM

